import Mathlib

/-!
Shallow embedding of the Auto_Chinapress_Telegram repository
(src/chinapress.py, src/state_store.py, src/main.py) and proofs about it.

Python strings are modelled as Lean `String`/`List Char`; Python sets of
strings as `Finset String`; Python `None`-able values as `Option`; Python
exceptions as `Except`/`Option`.  Each definition carries a comment naming
the source function and lines it embeds.
-/

namespace ChinaPress

/-! ## Basic string utilities (substring / startswith, as used via Python
`in`, `str.startswith`, `str.strip`) -/

/-- `startsWithChars n h`: the char list `h` starts with `n`
(Python `str.startswith` on the decomposed strings). -/
def startsWithChars : List Char → List Char → Bool
  | [], _ => true
  | _ :: _, [] => false
  | n :: ns, h :: hs => n == h && startsWithChars ns hs

/-- `containsChars n h`: `n` occurs as a contiguous run inside `h`
(Python `needle in haystack` on strings). -/
def containsChars (needle : List Char) : List Char → Bool
  | [] => startsWithChars needle []
  | h :: hs => startsWithChars needle (h :: hs) || containsChars needle hs

/-- Python `needle in haystack` for `String`s. -/
def strContains (needle hay : String) : Bool :=
  containsChars needle.data hay.data

/-- Python `s.startswith(p)` for `String`s. -/
def strStartsWith (p s : String) : Bool :=
  startsWithChars p.data s.data

/-- Python truthiness of an optional string: `None` and `""` are falsy. -/
def truthy : Option String → Bool
  | none => false
  | some s => s ≠ ""

/-- The ASCII whitespace characters Python's `str.strip()` removes. -/
def isPySpace (c : Char) : Bool :=
  c == ' ' || c == '\t' || c == '\n' || c == '\r' || c == '\x0b' || c == '\x0c'

/-- Drop leading Python whitespace from a char list. -/
def dropPySpaces : List Char → List Char
  | [] => []
  | c :: rest => if isPySpace c then dropPySpaces rest else c :: rest

/-- Python `s.strip()`: remove leading and trailing whitespace. -/
def pyStrip (s : String) : String :=
  String.mk ((dropPySpaces (dropPySpaces s.data.reverse).reverse))

/-! ## Python `int()` (used by `main.py` line 19:
`int(os.getenv("MAX_ITEMS_PER_RUN", "10"))`) -/

/-- Numeric value of a decimal digit char. -/
def digitVal (c : Char) : Nat := c.toNat - 48

/-- Continue parsing a Python integer literal after a first digit:
digits, optionally separated by single underscores that must sit between
two digits (Python 3 `int()` grammar).  `none` models `ValueError`. -/
def pyDigitsGo (acc : Nat) : List Char → Option Nat
  | [] => some acc
  | '_' :: c :: rest =>
      if c.isDigit then pyDigitsGo (acc * 10 + digitVal c) rest else none
  | c :: rest =>
      if c.isDigit then pyDigitsGo (acc * 10 + digitVal c) rest else none

/-- Parse a nonempty run of decimal digits (with Python's underscore rule). -/
def pyDigits : List Char → Option Nat
  | [] => none
  | c :: rest => if c.isDigit then pyDigitsGo (digitVal c) rest else none

/-- Python `int(s)` on a string: strip surrounding whitespace, optional
sign, then digits.  `none` models the `ValueError` Python raises on any
other input. -/
def pyInt (s : String) : Option Int :=
  match (pyStrip s).data with
  | '+' :: rest => (pyDigits rest).map Int.ofNat
  | '-' :: rest => (pyDigits rest).map (fun n => -(n : Int))
  | cs => (pyDigits cs).map Int.ofNat

/-! ## Data model (src/models.py): the `Article` dataclass. -/

/-- `Article` dataclass from src/models.py. -/
structure Article where
  title : String
  url : String
  published_at : Option String
  summary : Option String
  images : List String
  deriving Repr, DecidableEq

/-! ## Feed entries (inputs to `fetch_from_rss`, src/chinapress.py 85-103).

A feedparser entry is modelled by the fields the code reads.  The inline
`<img src="...">` captures that `re.finditer` produces from the entry's
summary HTML are carried as the field `summary_img_srcs` (the regex engine
itself is not re-implemented; the field holds its output in order). -/

/-- One element of `entry.links` as read by
`_extract_images_from_feed_entry` (src/chinapress.py 63-70). -/
structure FeedLink where
  rel : Option String
  mime : Option String
  href : Option String
  deriving Repr, DecidableEq

/-- A feedparser entry, restricted to the fields the code reads. -/
structure FeedEntry where
  link : Option String
  title : Option String
  published : Option String
  updated : Option String
  summary : Option String
  /-- `media.get("url")` for each element of `entry.get("media_content")`. -/
  media_content : List (Option String)
  links : List FeedLink
  /-- The successive captures of
  `re.finditer(r"<img[^>]+src=\"([^\"]+)\"", summary)`. -/
  summary_img_srcs : List String
  deriving Repr, DecidableEq

/-- First loop of `_extract_images_from_feed_entry` (src/chinapress.py
56-62): urls of media attachments, skipping falsy ones. -/
def mediaImages (e : FeedEntry) : List String :=
  e.media_content.filterMap (fun u? =>
    match u? with
    | none => none
    | some u => if u = "" then none else some u)

/-- Second loop (src/chinapress.py 63-70): hrefs of enclosure links whose
declared MIME type starts with `image/`, skipping falsy hrefs. -/
def enclosureImages (e : FeedEntry) : List String :=
  e.links.filterMap (fun l =>
    if l.rel = some "enclosure" && strStartsWith "image/" ((l.mime).getD "") then
      match l.href with
      | none => none
      | some h => if h = "" then none else some h
    else none)

/-- Final loop of `_extract_images_from_feed_entry` (src/chinapress.py
77-83): drop duplicates keeping the first occurrence, via a `seen` set and
an output accumulator. -/
def dedupLoop (seen : Finset String) : List String → List String
  | [] => []
  | u :: rest =>
      if u ∈ seen then dedupLoop seen rest
      else u :: dedupLoop (insert u seen) rest

/-- `_extract_images_from_feed_entry` (src/chinapress.py 54-83): the three
collection loops run in order into one `images` list, then the dedup loop. -/
def extract_images_from_feed_entry (e : FeedEntry) : List String :=
  dedupLoop ∅ (mediaImages e ++ enclosureImages e ++ e.summary_img_srcs)

/-- `fetch_from_rss` (src/chinapress.py 85-103): for each of the first
`max_items` entries, require truthy link and title, build an `Article`. -/
def fetch_from_rss (entries : List FeedEntry) (max_items : Nat) : List Article :=
  (entries.take max_items).filterMap (fun e =>
    if truthy e.link && truthy e.title then
      some { title := pyStrip ((e.title).getD "")
             url := pyStrip ((e.link).getD "")
             published_at :=
               if truthy e.published then e.published
               else e.updated
             summary := e.summary
             images := extract_images_from_feed_entry e }
    else none)

/-! ## Article-like URL classification
(src/chinapress.py 105-140 `fetch_from_home`,
 142-213 `fetch_from_home_playwright`, 337-341 `fetch_from_sitemap`).

Each `re.search` is embedded as a scan over every position of the char
list, with an explicit disjunction where the regex would backtrack. -/

/-- Match `[?&]p=\d+` at the head of the list. -/
def postIdAt : List Char → Bool
  | c :: 'p' :: '=' :: d :: _ => (c == '?' || c == '&') && d.isDigit
  | _ => false

/-- `re.search(r"[?&]p=\d+", s)` (src/chinapress.py 125, 340). -/
def searchPostId : List Char → Bool
  | [] => false
  | c :: rest => postIdAt (c :: rest) || searchPostId rest

/-- Match `\d{1,2}/` at the head (both widths, as regex backtracking
would try them). -/
def oneOrTwoDigitsSlash : List Char → Bool
  | a :: rest =>
      a.isDigit &&
      ((match rest with | '/' :: _ => true | _ => false) ||
       (match rest with | b :: '/' :: _ => b.isDigit | _ => false))
  | [] => false

/-- Match `\d{1,2}/\d{1,2}/` at the head. -/
def monthDaySlashes : List Char → Bool
  | a :: rest =>
      a.isDigit &&
      ((match rest with | '/' :: r2 => oneOrTwoDigitsSlash r2 | _ => false) ||
       (match rest with
        | b :: '/' :: r2 => b.isDigit && oneOrTwoDigitsSlash r2
        | _ => false))
  | [] => false

/-- Match `/20\d{2}/\d{1,2}/\d{1,2}/` at the head. -/
def ymdAt : List Char → Bool
  | '/' :: '2' :: '0' :: a :: b :: '/' :: rest =>
      a.isDigit && b.isDigit && monthDaySlashes rest
  | _ => false

/-- `re.search(r"/20\d{2}/\d{1,2}/\d{1,2}/", s)`
(src/chinapress.py 126, 183). -/
def searchYmd : List Char → Bool
  | [] => false
  | c :: rest => ymdAt (c :: rest) || searchYmd rest

/-- Match `/20\d{2}\d{2}\d{2}/` at the head. -/
def ymd8At : List Char → Bool
  | '/' :: '2' :: '0' :: a :: b :: c :: d :: e :: f :: '/' :: _ =>
      a.isDigit && b.isDigit && c.isDigit && d.isDigit && e.isDigit && f.isDigit
  | _ => false

/-- `re.search(r"/20\d{2}\d{2}\d{2}/", s)` (src/chinapress.py 127). -/
def searchYmd8 : List Char → Bool
  | [] => false
  | c :: rest => ymd8At (c :: rest) || searchYmd8 rest

/-- Match `/20\d{2}/` at the head. -/
def yearAt : List Char → Bool
  | '/' :: '2' :: '0' :: a :: b :: '/' :: _ => a.isDigit && b.isDigit
  | _ => false

/-- `re.search(r"/20\d{2}/", s)` (src/chinapress.py 340). -/
def searchYear : List Char → Bool
  | [] => false
  | c :: rest => yearAt (c :: rest) || searchYear rest

/-- An anchor element as both home-page strategies read it: the `href`
attribute (possibly absent) and the visible text. -/
structure Anchor where
  href : Option String
  text : String
  deriving Repr, DecidableEq

/-- Per-anchor acceptance of the Static-HTML strategy: the body of the
anchor loop of `fetch_from_home` (src/chinapress.py 116-132), without the
per-pass duplicate suppression and count cap. -/
def home_accepts (a : Anchor) : Bool :=
  match a.href with
  | none => false
  | some href_raw =>
      if href_raw = "" then false
      else
        let url := pyStrip href_raw
        if !strContains "chinapress.com.my" url then false
        else
          let is_post_id := searchPostId url.data
          let is_yyyy_mm_dd := searchYmd url.data
          let is_yyyymmdd := searchYmd8 url.data
          if !(is_post_id || is_yyyy_mm_dd || is_yyyymmdd) then false
          else decide (6 ≤ (pyStrip a.text).length)

/-- Per-anchor acceptance of the Rendered-HTML (Playwright) strategy: the
body of the anchor loop of `fetch_from_home_playwright`
(src/chinapress.py 175-189), without duplicate suppression and count cap.
`a.get_attribute("href") or ""` then `.strip()`; the href must start with
`http`; only the `/YYYY/M/D/` pattern is tested. -/
def playwright_accepts (a : Anchor) : Bool :=
  let href := pyStrip ((a.href).getD "")
  if href = "" || !strStartsWith "http" href then false
  else if !strContains "chinapress.com.my" href then false
  else if !searchYmd href.data then false
  else decide (6 ≤ (pyStrip a.text).length)

/-- Modelled from the spec (§4.5): the common article-like heuristic the
spec asserts for BOTH home-page variants — same-domain, one of
{post-id query, `/YYYY/M/D/` path, `/YYYYMMDD/` path}, trimmed text of at
least 6 characters. -/
def spec_article_like (a : Anchor) : Bool :=
  let url := pyStrip ((a.href).getD "")
  url ≠ "" &&
  strContains "chinapress.com.my" url &&
  (searchPostId url.data || searchYmd url.data || searchYmd8 url.data) &&
  decide (6 ≤ (pyStrip a.text).length)

/-! ## Sitemap strategy (src/chinapress.py 285-348 `fetch_from_sitemap`).

`_parse_sitemap_urls` (296-310) is abstracted as a function
`fetch : String → List String` from a sitemap location to the same-domain
`<url><loc>` values it yields (`[]` covers both "no urls" and
`ET.ParseError`).  The direct post-sitemap's result and the parsed
sitemap-index entries are inputs. -/

/-- Split a char list at the LAST occurrence of `c`:
`some (before, after)`, or `none` when `c` does not occur. -/
def splitLastChar (c : Char) : List Char → Option (List Char × List Char)
  | [] => none
  | x :: xs =>
      match splitLastChar c xs with
      | some (b, a) => some (x :: b, a)
      | none => if x == c then some ([], xs) else none

/-- `u.rsplit('/', 2)[-2]` (src/chinapress.py 342): the second-to-last
part of the right-split; `none` models the `IndexError` Python raises when
`u` contains no `/` (the split then has a single part). -/
def sitemapTitleSeg (u : String) : Option String :=
  match splitLastChar '/' u.data with
  | none => none
  | some (b1, _) =>
      match splitLastChar '/' b1 with
      | none => some (String.mk b1)
      | some (_, a2) => some (String.mk a2)

/-- Title synthesis of `fetch_from_sitemap` (src/chinapress.py 342-344):
second-to-last path segment, hyphens replaced by spaces, falling back to
the raw url when that segment is empty. -/
def sitemap_title (u : String) : Option String :=
  (sitemapTitleSeg u).map (fun seg =>
    let t := String.mk (seg.data.map (fun c => if c == '-' then ' ' else c))
    if t = "" then u else t)

/-- Article loop of `fetch_from_sitemap` (src/chinapress.py 337-347),
running over the (already truncated) url list with the current article
count; `.error ()` models the `IndexError` of the title synthesis. -/
def sitemapArticlesGo (max_items : Nat) (count : Nat) :
    List String → Except Unit (List Article)
  | [] => .ok []
  | u :: rest =>
      if !(searchYear u.data || searchPostId u.data) then
        sitemapArticlesGo max_items count rest
      else
        match sitemap_title u with
        | none => .error ()
        | some t =>
            let art : Article :=
              { title := t, url := u, published_at := none,
                summary := none, images := [] }
            if max_items ≤ count + 1 then .ok [art]
            else (sitemapArticlesGo max_items (count + 1) rest).map (art :: ·)

/-- `for u in urls[:max_items * 3]: ...` (src/chinapress.py 338): the
article loop sees only the first `3 * max_items` resolved urls. -/
def fetch_from_sitemap_articles (urls : List String) (max_items : Nat) :
    Except Unit (List Article) :=
  sitemapArticlesGo max_items 0 (urls.take (max_items * 3))

/-- Index-entry collection (src/chinapress.py 324-330): for each
`<sitemap><loc>` text, skip falsy ones, keep those containing
`post-sitemap`, stripped. -/
def candidate_post_sitemaps (index : List (Option String)) : List String :=
  index.filterMap (fun loc? =>
    match loc? with
    | none => none
    | some loc =>
        if loc = "" then none
        else if strContains "post-sitemap" loc then some (pyStrip loc) else none)

/-- `for loc in sorted(entries, reverse=True): urls = parse(loc); if urls:
break` (src/chinapress.py 332-335): first location whose fetch is
non-empty, in the given order; `[]` when all fetches are empty. -/
def firstNonEmptyFetch (fetch : String → List String) : List String → List String
  | [] => []
  | l :: rest =>
      let us := fetch l
      if us ≠ [] then us else firstNonEmptyFetch fetch rest

/-- Python string `<=`: lexicographic comparison of the code-point
sequences (what `sorted` uses on `str`). -/
def charListLe : List Char → List Char → Bool
  | [], _ => true
  | _ :: _, [] => false
  | a :: as, b :: bs =>
      if a.toNat < b.toNat then true
      else if b.toNat < a.toNat then false
      else charListLe as bs

/-- Python `s <= t` on strings. -/
def strLe (s t : String) : Bool :=
  charListLe s.data t.data

/-- Descending insertion: place `x` before the first element that is
`<=` it. -/
def insertDescStr (x : String) : List String → List String
  | [] => [x]
  | y :: ys => if strLe y x then x :: y :: ys else y :: insertDescStr x ys

/-- `sorted(entries, reverse=True)` (src/chinapress.py 332): descending
lexicographic sort.  (On strings, equal elements are identical, so this
insertion sort produces the same list as Python's stable sort.) -/
def sortDescStr : List String → List String
  | [] => []
  | x :: xs => insertDescStr x (sortDescStr xs)

/-- Two-phase url resolution of `fetch_from_sitemap` (src/chinapress.py
312-335).  `direct` is what `_parse_sitemap_urls(POST_SITEMAP)` returned;
`index` is the parsed sitemap-index (`none` = `ET.ParseError`, in which
case `urls` stays `[]`); entries are sorted in descending lexical order
and fetched until one yields urls. -/
def resolve_sitemap_urls (direct : List String)
    (index : Option (List (Option String)))
    (fetch : String → List String) : List String :=
  if direct ≠ [] then direct
  else
    match index with
    | none => []
    | some entries =>
        firstNonEmptyFetch fetch
          (sortDescStr (candidate_post_sitemaps entries))

/-- `fetch_from_sitemap` (src/chinapress.py 285-348), composed from the
resolution phase and the article loop. -/
def fetch_from_sitemap (direct : List String)
    (index : Option (List (Option String)))
    (fetch : String → List String) (max_items : Nat) :
    Except Unit (List Article) :=
  fetch_from_sitemap_articles (resolve_sitemap_urls direct index fetch) max_items

/-! ## State store (src/state_store.py `StateStore`).

The in-memory `self._seen` set is a `Finset String`.  The JSON document a
ledger file may hold is the inductive `JVal` (numbers restricted to
integers, which suffices for every claim); `json.load` raising is the
`.error` case of the loaded file. -/

/-- A JSON value as `json.load` produces it. -/
inductive JVal where
  | jnull : JVal
  | jbool : Bool → JVal
  | jnum : Int → JVal
  | jstr : String → JVal
  | jarr : List JVal → JVal
  | jobj : List (String × JVal) → JVal

mutual

/-- Python `repr` of a JSON-decoded value (string escaping elided). -/
def pyRepr : JVal → String
  | .jnull => "None"
  | .jbool true => "True"
  | .jbool false => "False"
  | .jnum n => toString n
  | .jstr s => "'" ++ s ++ "'"
  | .jarr xs => "[" ++ ", ".intercalate (pyReprList xs) ++ "]"
  | .jobj kvs => "\x7b" ++ ", ".intercalate (pyReprObj kvs) ++ "\x7d"

/-- `repr` of each list element. -/
def pyReprList : List JVal → List String
  | [] => []
  | v :: vs => pyRepr v :: pyReprList vs

/-- `repr` of each dict item as `'key': value`. -/
def pyReprObj : List (String × JVal) → List String
  | [] => []
  | (k, v) :: kvs => ("'" ++ k ++ "': " ++ pyRepr v) :: pyReprObj kvs

end

/-- Python `str` of a JSON-decoded value (`str` of a `str` is itself;
containers and scalars print as their `repr`). -/
def pyStr : JVal → String
  | .jstr s => s
  | v => pyRepr v

/-- Python `set(map(str, v))` for the value under the `"seen"` key
(src/state_store.py, `load`): iterating a list yields its elements, a
string its characters, a dict its keys; any other value raises
`TypeError` (`none`). -/
def pyStrIter : JVal → Option (List String)
  | .jarr xs => some (xs.map pyStr)
  | .jstr s => some (s.data.map (fun c => String.mk [c]))
  | .jobj kvs => some (kvs.map (fun kv => kv.1))
  | _ => none

/-- Result of `StateStore.load`: the new in-memory set and whether
`logging.warning` fired. -/
structure LoadResult where
  seen : Finset String
  warned : Bool
  deriving DecidableEq

/-- `StateStore.load` (src/state_store.py): `none` = the path does not
exist; `some (.error ())` = the file exists but `json.load` raised;
`some (.ok v)` = the parsed document.  Every exception inside the `try`
block (including the `TypeError` of a non-iterable `"seen"` value) is
caught by the `except` clause, which warns and resets to the empty set. -/
def load (file : Option (Except Unit JVal)) : LoadResult :=
  match file with
  | none => { seen := ∅, warned := false }
  | some (.error _) => { seen := ∅, warned := true }
  | some (.ok v) =>
      match v with
      | .jarr xs => { seen := (xs.map pyStr).toFinset, warned := false }
      | .jobj kvs =>
          match kvs.lookup "seen" with
          | none => { seen := ∅, warned := false }
          | some sv =>
              match pyStrIter sv with
              | some strs => { seen := strs.toFinset, warned := false }
              | none => { seen := ∅, warned := true }
      | _ => { seen := ∅, warned := false }

/-- JSON string escaping as `json.dump(..., ensure_ascii=False)` performs
it (escapes restricted to the characters that can appear in urls and the
common control characters). -/
def jsonEscape (s : String) : String :=
  String.mk (s.data.flatMap (fun c =>
    if c == '"' then ['\\', '"']
    else if c == '\\' then ['\\', '\\']
    else if c == '\n' then ['\\', 'n']
    else if c == '\t' then ['\\', 't']
    else if c == '\r' then ['\\', 'r']
    else [c]))

/-- `json.dump(xs, f, ensure_ascii=False, indent=2)` applied to a list of
strings: the exact text written to the file. -/
def jsonDumpList (xs : List String) : String :=
  match xs with
  | [] => "[]"
  | _ =>
      "[\n  " ++ ",\n  ".intercalate (xs.map (fun s => "\"" ++ jsonEscape s ++ "\"")) ++ "\n]"

/-- The two files `StateStore.save` touches: the real ledger path and the
temporary path `self.path + ".tmp"`; `none` = the file does not exist. -/
structure FileState where
  real : Option String
  tmp : Option String
  deriving Repr, DecidableEq

/-- The serialized ledger: `json.dump(sorted(self._seen), ...)`
(src/state_store.py, `save`). -/
def serialize_seen (seen : Finset String) : String :=
  jsonDumpList (seen.sort (· ≤ ·))

/-- First step of `StateStore.save`: write the serialized set to the
temporary path.  The real path is untouched. -/
def save_write_tmp (fs : FileState) (seen : Finset String) : FileState :=
  { fs with tmp := some (serialize_seen seen) }

/-- Second step of `StateStore.save`: `os.replace(tmp_path, self.path)` —
the temporary file atomically becomes the real file. -/
def os_replace (fs : FileState) : FileState :=
  { real := fs.tmp, tmp := none }

/-- `StateStore.save` (src/state_store.py): temp write then atomic
replace. -/
def save (fs : FileState) (seen : Finset String) : FileState :=
  os_replace (save_write_tmp fs seen)

/-! ## Fallback coordinator (src/chinapress.py 249-283 `fetch_latest`).

Each strategy's outcome is an input: `.error ()` models the strategy
raising (any exception), `.ok l` models it returning the list `l`.  The
trace records, in order, the strategies the coordinator attempted. -/

/-- The five strategies, in the fixed order `fetch_latest` tries them. -/
inductive StratTag where
  | feed
  | sitemap
  | staticHtml
  | restApi
  | rendered
  deriving Repr, DecidableEq

/-- One `try: items = strategy(); if items: return items; except: log`
block: `some l` when the coordinator returns `l` here, `none` when it
falls through (the strategy raised or returned an empty list). -/
def strat_result (r : Except Unit (List Article)) : Option (List Article) :=
  match r with
  | .error _ => none
  | .ok l => if l ≠ [] then some l else none

/-- `fetch_latest` (src/chinapress.py 249-283) with an attempt trace:
RSS, then sitemap, then static homepage, then WP JSON, then Playwright;
the fall-through of the last block returns `[]` (line 283). -/
def fetch_latest_trace (r s h w p : Except Unit (List Article)) :
    List Article × List StratTag :=
  match strat_result r with
  | some l => (l, [.feed])
  | none =>
  match strat_result s with
  | some l => (l, [.feed, .sitemap])
  | none =>
  match strat_result h with
  | some l => (l, [.feed, .sitemap, .staticHtml])
  | none =>
  match strat_result w with
  | some l => (l, [.feed, .sitemap, .staticHtml, .restApi])
  | none =>
  match strat_result p with
  | some l => (l, [.feed, .sitemap, .staticHtml, .restApi, .rendered])
  | none => ([], [.feed, .sitemap, .staticHtml, .restApi, .rendered])

/-- The articles `fetch_latest` returns. -/
def fetch_latest (r s h w p : Except Unit (List Article)) : List Article :=
  (fetch_latest_trace r s h w p).1

/-! ## Run orchestrator (src/main.py 16-45 `main`). -/

/-- `int(os.getenv("MAX_ITEMS_PER_RUN", "10"))` (src/main.py 19):
`os.getenv` substitutes `"10"` when the variable is absent; `int` raises
`ValueError` (modelled as `.error`) on an unparseable value. -/
def max_items_per_run (env : Option String) : Except String Int :=
  match pyInt (env.getD "10") with
  | some n => .ok n
  | none => .error "ValueError"

/-- `build_message` (src/main.py 9-14). -/
def build_message (title url : String) (published : Option String) : String :=
  "\n".intercalate
    (["<b>" ++ title ++ "</b>"] ++
     (if truthy published then [("🕒 " ++ (published.getD ""))] else []) ++
     [url])

/-- The delivery loop of `main` (src/main.py 29-38): walk the fetched
articles with the in-memory seen set and the current `sent_count`; skip
seen urls, otherwise call `tg.send_message`, add to the set, and break
once `sent_count >= max_items_total`.  `send u` models the outcome of
`tg.send_message` for the message of the article with url `u`: `true` =
the call returns (the message was delivered), `false` = it raises
(non-success response or network failure, src/telegram_client.py 43-46).
`main` has no try/except around the loop, so a raising send propagates:
the loop stops at once, `state.add` for that url is never reached, and —
since `state.save()` at src/main.py 41 is also never reached — the run is
aborted.  Returns the urls whose messages were delivered (in order), the
final in-memory set, and whether the run aborted. -/
def runLoop (send : String → Bool) (max_items : Nat) :
    List Article → Finset String → Nat → List String × Finset String × Bool
  | [], seen, _ => ([], seen, false)
  | a :: rest, seen, sc =>
      if a.url ∈ seen then runLoop send max_items rest seen sc
      else if send a.url then
        let seen' := insert a.url seen
        if max_items ≤ sc + 1 then ([a.url], seen', false)
        else
          let r := runLoop send max_items rest seen' (sc + 1)
          (a.url :: r.1, r.2.1, r.2.2)
      else ([], seen, true)

/-- The urls whose messages `main` delivers during one run, given the
loaded ledger and the send outcomes. -/
def run_sent (send : String → Bool) (articles : List Article)
    (ledger : Finset String) (max_items : Nat) : List String :=
  (runLoop send max_items articles ledger 0).1

/-- The in-memory seen set when the loop finishes (or aborts). -/
def run_final_seen (send : String → Bool) (articles : List Article)
    (ledger : Finset String) (max_items : Nat) : Finset String :=
  (runLoop send max_items articles ledger 0).2.1

/-- Whether the run aborted on a raising `tg.send_message`. -/
def run_aborted (send : String → Bool) (articles : List Article)
    (ledger : Finset String) (max_items : Nat) : Bool :=
  (runLoop send max_items articles ledger 0).2.2

/-- The ledger on disk after the run (src/main.py 40-41): a raising send
propagates out of `main` before `state.save()`, so an aborted run leaves
the file untouched; otherwise `state.save()` persists the in-memory set
exactly when `sent_count > 0`. -/
def run_persisted (send : String → Bool) (articles : List Article)
    (ledger : Finset String) (max_items : Nat) : Finset String :=
  if run_aborted send articles ledger max_items then ledger
  else if run_sent send articles ledger max_items ≠ [] then
    run_final_seen send articles ledger max_items
  else ledger

/-- The ledger after `n` runs over fixed remote content `articles`,
starting from the ledger `L0` (each run loads what the previous run
persisted); `sends n` gives run `n`'s send outcomes. -/
def ledger_after (sends : Nat → String → Bool) (articles : List Article)
    (max_items : Nat) (L0 : Finset String) : Nat → Finset String
  | 0 => L0
  | n + 1 =>
      run_persisted (sends n) articles
        (ledger_after sends articles max_items L0 n) max_items

/-- The urls delivered during run `n` (0-based) of the sequence. -/
def sent_in_run (sends : Nat → String → Bool) (articles : List Article)
    (max_items : Nat) (L0 : Finset String) (n : Nat) : List String :=
  run_sent (sends n) articles
    (ledger_after sends articles max_items L0 n) max_items

/-! ## Helper notions and lemmas shared by the theorems. -/

/-- Modelled from the spec: "removing duplicates while preserving
first-occurrence order". -/
def firstOccurrenceDedup : List String → List String
  | [] => []
  | x :: xs => x :: (firstOccurrenceDedup xs).filter (fun y => y ≠ x)

/-- The seen-set dedup loop of `_extract_images_from_feed_entry` computes
the first-occurrence dedup of the part not already seen. -/
theorem dedupLoop_eq_filter (l : List String) :
    ∀ seen : Finset String,
      dedupLoop seen l = (firstOccurrenceDedup l).filter (fun y => y ∉ seen) := by
  induction l with
  | nil => intro seen; rfl
  | cons x xs ih =>
    intro seen
    by_cases hx : x ∈ seen
    · rw [dedupLoop, if_pos hx, firstOccurrenceDedup, List.filter_cons, ih]
      simp only [hx, List.filter_filter, not_true_eq_false, decide_False, if_false]
      apply List.filter_congr
      intro y _
      by_cases hy : y ∈ seen
      · simp [hy]
      · have hyx : y ≠ x := fun h => hy (h ▸ hx)
        simp [hy, hyx]
    · rw [dedupLoop, if_neg hx, firstOccurrenceDedup, List.filter_cons, ih]
      simp only [hx, List.filter_filter, not_false_eq_true, decide_True, if_true]
      congr 1
      apply List.filter_congr
      intro y _
      by_cases hyx : y = x
      · simp [hyx]
      · simp [hyx, Finset.mem_insert]

/-- C7 — For every feed entry, the images list is the concatenation, in
order, of feed-native media attachments, image-typed enclosure links, and
inline `<img src>` occurrences in the summary, with duplicates removed
preserving first-occurrence order; in particular `[a, b, a, c]`
normalizes to `[a, b, c]`. -/
theorem c7_feed_images :
    (∀ e : FeedEntry,
        extract_images_from_feed_entry e =
          firstOccurrenceDedup
            (mediaImages e ++ enclosureImages e ++ e.summary_img_srcs)) ∧
    firstOccurrenceDedup ["a", "b", "a", "c"] = ["a", "b", "c"] := by
  constructor
  · intro e
    rw [extract_images_from_feed_entry, dedupLoop_eq_filter]
    simp
  · decide

/-- C4 — `StateStore.save` serializes the seen set as a sorted list,
writes it to the temporary path (leaving the real path byte-for-byte
unchanged at that point), and the atomic replace then makes the
serialized text the real file's content; so an interruption between the
two steps preserves the previous ledger exactly. -/
theorem c4_save_atomic (fs : FileState) (seen : Finset String) :
    (save_write_tmp fs seen).real = fs.real ∧
    (save_write_tmp fs seen).tmp = some (serialize_seen seen) ∧
    save fs seen = { real := some (serialize_seen seen), tmp := none } ∧
    serialize_seen seen = jsonDumpList (seen.sort (· ≤ ·)) ∧
    (seen.sort (· ≤ ·)).Sorted (· ≤ ·) ∧
    (seen.sort (· ≤ ·)).toFinset = seen := by
  refine ⟨rfl, rfl, rfl, rfl, Finset.sort_sorted _ _, Finset.sort_toFinset _ _⟩

/-- C9 (amended) — the maximum-items configuration defaults to 10 when
the environment variable is absent; when the variable is present but
unparseable, `int()` raises `ValueError` and the run fails (there is no
fallback to the default); a parseable value is used as given. -/
theorem c9_max_items_amended :
    max_items_per_run none = .ok 10 ∧
    (∀ s, pyInt s = none → max_items_per_run (some s) = .error "ValueError") ∧
    (∀ s n, pyInt s = some n → max_items_per_run (some s) = .ok n) := by
  refine ⟨rfl, ?_, ?_⟩
  · intro s hs
    simp [max_items_per_run, hs]
  · intro s n hs
    simp [max_items_per_run, hs]

/-- C9 witness: a concrete unparseable value makes the run fail, and the
absent case defaults to 10. -/
theorem c9_max_items_witness :
    max_items_per_run (some "xyz") = .error "ValueError" ∧
    max_items_per_run none = .ok 10 :=
  ⟨c9_max_items_amended.2.1 "xyz" (by decide), c9_max_items_amended.1⟩

/-- C9 counterexample — the claim's "graceful fallback to the default on
unparseable values" is false: on the unparseable value `"abc"` the
configuration step raises (models `int("abc")` raising `ValueError`)
instead of yielding the default 10. -/
theorem c9_max_items_counterexample :
    max_items_per_run (some "abc") = .error "ValueError" ∧
    Except.error "ValueError" ≠ (.ok 10 : Except String Int) := by
  exact ⟨rfl, fun h => by cases h⟩

/-- Articles produced by the sitemap article loop draw their urls from
the list the loop was given. -/
theorem sitemapArticlesGo_url_mem :
    ∀ (l : List String) (max_items count : Nat) (arts : List Article),
      sitemapArticlesGo max_items count l = .ok arts →
      ∀ a ∈ arts, a.url ∈ l := by
  intro l
  induction l with
  | nil =>
    intro max_items count arts h a ha
    simp only [sitemapArticlesGo] at h
    cases h
    simp at ha
  | cons u rest ih =>
    intro max_items count arts h a ha
    rw [sitemapArticlesGo] at h
    split at h
    · exact List.mem_cons_of_mem u (ih _ _ _ h a ha)
    · split at h
      · exact absurd h (by simp)
      · split at h
        · rw [Except.ok.injEq] at h
          subst h
          rcases List.mem_singleton.mp ha with rfl
          exact List.mem_cons_self _ _
        · cases hrec : sitemapArticlesGo max_items (count + 1) rest with
          | error e => rw [hrec] at h; exact absurd h (by simp [Except.map])
          | ok arts' =>
            rw [hrec] at h
            simp only [Except.map, Except.ok.injEq] at h
            subst h
            rcases List.mem_cons.mp ha with rfl | ha'
            · exact List.mem_cons_self _ _
            · exact List.mem_cons_of_mem u (ih _ _ _ hrec a ha')

/-- C10 — the sitemap article loop inspects only the first
`3 * max_items` resolved urls: every returned article's url sits in that
truncated list, so a url whose only position is at index `3 * max_items`
or later is never returned, even when fewer than `max_items` articles
were produced. -/
theorem c10_sitemap_truncation
    (urls : List String) (max_items : Nat) (arts : List Article)
    (h : fetch_from_sitemap_articles urls max_items = .ok arts) :
    ∀ a ∈ arts, a.url ∈ urls.take (max_items * 3) :=
  sitemapArticlesGo_url_mem _ _ _ _ h

/-- C10 witness: with `max_items = 1` only the first three urls are
inspected — the article-like url at index 3 is not returned even though
no article at all was produced from the first three. -/
theorem c10_sitemap_truncation_witness :
    fetch_from_sitemap_articles
      ["x1", "x2", "x3", "https://www.chinapress.com.my/2024/5/1/post/"] 1 =
      .ok [] ∧
    ∀ a ∈ ([] : List Article),
      a.url ∈ (["x1", "x2", "x3",
        "https://www.chinapress.com.my/2024/5/1/post/"].take (1 * 3)) :=
  ⟨rfl, c10_sitemap_truncation _ 1 [] rfl⟩

/-- C2 — `fetch_latest` tries Feed, Sitemap, Static-HTML, REST,
Rendered-HTML strictly in that order: the attempted strategies always
form a prefix of that chain; the first strategy with a non-empty result
is returned without attempting any later one; a raising strategy behaves
exactly like one returning an empty list; and when every strategy yields
empty (or raises) the coordinator returns `[]`, not an error. -/
theorem c2_fallback_coordinator (r s h w p : Except Unit (List Article)) :
    (∃ n, (fetch_latest_trace r s h w p).2 =
        [StratTag.feed, .sitemap, .staticHtml, .restApi, .rendered].take n) ∧
    (∀ l, l ≠ [] → fetch_latest_trace (.ok l) s h w p = (l, [.feed])) ∧
    (∀ l, strat_result r = none → l ≠ [] →
        fetch_latest_trace r (.ok l) h w p = (l, [.feed, .sitemap])) ∧
    (∀ l, strat_result r = none → strat_result s = none → l ≠ [] →
        fetch_latest_trace r s (.ok l) w p =
          (l, [.feed, .sitemap, .staticHtml])) ∧
    (∀ l, strat_result r = none → strat_result s = none →
        strat_result h = none → l ≠ [] →
        fetch_latest_trace r s h (.ok l) p =
          (l, [.feed, .sitemap, .staticHtml, .restApi])) ∧
    (∀ l, strat_result r = none → strat_result s = none →
        strat_result h = none → strat_result w = none → l ≠ [] →
        fetch_latest_trace r s h w (.ok l) =
          (l, [.feed, .sitemap, .staticHtml, .restApi, .rendered])) ∧
    (fetch_latest_trace (.error ()) s h w p =
        fetch_latest_trace (.ok []) s h w p) ∧
    (fetch_latest_trace r (.error ()) h w p =
        fetch_latest_trace r (.ok []) h w p) ∧
    (fetch_latest_trace r s (.error ()) w p =
        fetch_latest_trace r s (.ok []) w p) ∧
    (fetch_latest_trace r s h (.error ()) p =
        fetch_latest_trace r s h (.ok []) p) ∧
    (fetch_latest_trace r s h w (.error ()) =
        fetch_latest_trace r s h w (.ok [])) ∧
    (strat_result r = none → strat_result s = none → strat_result h = none →
        strat_result w = none → strat_result p = none →
        fetch_latest r s h w p = []) := by
  refine ⟨?_, ?_, ?_, ?_, ?_, ?_, ?_, ?_, ?_, ?_, ?_, ?_⟩
  · unfold fetch_latest_trace
    rcases hr : strat_result r with _ | l
    · rcases hs : strat_result s with _ | l
      · rcases hh : strat_result h with _ | l
        · rcases hw : strat_result w with _ | l
          · rcases hp : strat_result p with _ | l
            · exact ⟨5, rfl⟩
            · exact ⟨5, rfl⟩
          · exact ⟨4, rfl⟩
        · exact ⟨3, rfl⟩
      · exact ⟨2, rfl⟩
    · exact ⟨1, rfl⟩
  · intro l hl
    unfold fetch_latest_trace
    simp [strat_result, hl]
  · intro l hr hl
    unfold fetch_latest_trace
    rw [hr]
    simp [strat_result, hl]
  · intro l hr hs hl
    unfold fetch_latest_trace
    rw [hr, hs]
    simp [strat_result, hl]
  · intro l hr hs hh hl
    unfold fetch_latest_trace
    rw [hr, hs, hh]
    simp [strat_result, hl]
  · intro l hr hs hh hw hl
    unfold fetch_latest_trace
    rw [hr, hs, hh, hw]
    simp [strat_result, hl]
  · rfl
  · rfl
  · rfl
  · rfl
  · rfl
  · intro hr hs hh hw hp
    unfold fetch_latest fetch_latest_trace
    rw [hr, hs, hh, hw, hp]

/-- C2 witness: a non-empty RSS result short-circuits the chain, and a
raising strategy behaves like an empty one. -/
theorem c2_fallback_coordinator_witness :
    fetch_latest_trace
        (.ok [{ title := "t", url := "u", published_at := none,
                summary := none, images := [] }])
        (.error ()) (.error ()) (.error ()) (.error ()) =
      ([{ title := "t", url := "u", published_at := none,
          summary := none, images := [] }], [.feed]) ∧
    fetch_latest (.error ()) (.ok []) (.error ()) (.ok []) (.error ()) = [] :=
  ⟨(c2_fallback_coordinator
      (.ok [{ title := "t", url := "u", published_at := none,
              summary := none, images := [] }])
      (.error ()) (.error ()) (.error ()) (.error ())).2.1 _ (by simp),
   (c2_fallback_coordinator (.error ()) (.ok []) (.error ()) (.ok [])
      (.error ())).2.2.2.2.2.2.2.2.2.2.2 rfl rfl rfl rfl rfl⟩

/-- C3 counterexample — the two home-page variants do NOT share the
heuristic: a same-domain anchor with a numeric post-id query parameter
and 6 characters of text is article-like for the Static-HTML variant but
is rejected by the Rendered-HTML variant (which only tests the
`/YYYY/M/D/` path pattern). -/
theorem c3_heuristic_counterexample :
    home_accepts { href := some "https://www.chinapress.com.my/?p=1234",
                   text := "abcdef" } = true ∧
    playwright_accepts { href := some "https://www.chinapress.com.my/?p=1234",
                         text := "abcdef" } = false := by
  exact ⟨by decide, by decide⟩

/-- C3 (amended) — the Static-HTML variant classifies an anchor as
article-like exactly by the spec's heuristic (same-domain, one of
post-id query / `/YYYY/M/D/` path / `/YYYYMMDD/` path, trimmed text of at
least 6 characters); the Rendered-HTML variant is strictly narrower: it
additionally requires the href to start with `http` and accepts only the
`/YYYY/M/D/` path pattern, so every anchor it accepts the Static variant
also accepts, but not conversely.  Under the Static variant (with the
code's real domain) `/2024/5/1/x` and `/?p=1234` are article-like and
`/category/news` is not; the Rendered variant accepts the first and
rejects the other two. -/
theorem c3_heuristic_amended :
    (∀ a : Anchor, home_accepts a = spec_article_like a) ∧
    (∀ a : Anchor, playwright_accepts a = true → home_accepts a = true) ∧
    home_accepts { href := some "https://www.chinapress.com.my/2024/5/1/x",
                   text := "abcdef" } = true ∧
    playwright_accepts
      { href := some "https://www.chinapress.com.my/2024/5/1/x",
        text := "abcdef" } = true ∧
    home_accepts { href := some "https://www.chinapress.com.my/?p=1234",
                   text := "abcdef" } = true ∧
    home_accepts { href := some "https://www.chinapress.com.my/category/news",
                   text := "abcdef" } = false ∧
    playwright_accepts
      { href := some "https://www.chinapress.com.my/category/news",
        text := "abcdef" } = false := by
  refine ⟨?_, ?_, by decide, by decide, by decide, by decide, by decide⟩
  · intro a
    obtain ⟨href, text⟩ := a
    cases href with
    | none => rfl
    | some s =>
      by_cases hs : s = ""
      · subst hs; rfl
      · by_cases hc : strContains "chinapress.com.my" (pyStrip s) = true
        · have hne : pyStrip s ≠ "" := by
            intro h0
            rw [h0] at hc
            exact absurd hc (by decide)
          by_cases hpat : (searchPostId (pyStrip s).data ||
              searchYmd (pyStrip s).data || searchYmd8 (pyStrip s).data) = true
          · simp [home_accepts, spec_article_like, hs, hc, hne, hpat]
          · simp [home_accepts, spec_article_like, hs, hc, hne, hpat]
        · simp [home_accepts, spec_article_like, hs, hc]
  · intro a h
    obtain ⟨href, text⟩ := a
    cases href with
    | none => exact Bool.noConfusion h
    | some s =>
      by_cases h0 : pyStrip s = ""
      · simp [playwright_accepts, h0] at h
      · by_cases h1 : strStartsWith "http" (pyStrip s) = true
        · by_cases h2 : strContains "chinapress.com.my" (pyStrip s) = true
          · by_cases h3 : searchYmd (pyStrip s).data = true
            · simp only [playwright_accepts, Option.getD_some, h0, h1, h2, h3] at h
              have hs : s ≠ "" := by
                intro hs0
                apply h0
                rw [hs0]
                rfl
              simp [home_accepts, hs, h2, h3]
              simpa using h
            · simp [playwright_accepts, h0, h1, h2, h3] at h
          · simp [playwright_accepts, h0, h1, h2] at h
        · simp [playwright_accepts, h0, h1] at h

/-- C3 witness: a concrete anchor the Rendered-HTML variant accepts is
also accepted by the Static-HTML variant. -/
theorem c3_heuristic_amended_witness :
    playwright_accepts
      { href := some "https://www.chinapress.com.my/2024/5/1/x",
        text := "abcdef" } = true ∧
    home_accepts { href := some "https://www.chinapress.com.my/2024/5/1/x",
                   text := "abcdef" } = true :=
  ⟨by decide,
   c3_heuristic_amended.2.1
     { href := some "https://www.chinapress.com.my/2024/5/1/x",
       text := "abcdef" } (by decide)⟩

/-- C5 counterexample — a stored JSON list whose elements are not
strings is NOT reduced to an empty set with a warning: `set(map(str,
data))` coerces the elements, so the document `[1]` loads as `{"1"}`
with no warning, contradicting the claim that any shape other than a
list of strings (or a `seen` object) falls back to empty with a
warning. -/
theorem c5_load_counterexample :
    load (some (.ok (.jarr [.jnum 1]))) =
      { seen := {"1"}, warned := false } ∧
    ({"1"} : Finset String) ≠ (∅ : Finset String) := by
  exact ⟨rfl, by decide⟩

/-- C5 (amended) — `StateStore.load` is total (never raises): a missing
path yields the empty set silently; a file `json.load` cannot parse
yields the empty set with a warning (so content such as `not json`
yields an empty set and a logged warning, not an exception); a parsed
list yields the set of its elements coerced through `str`; an object
with a `"seen"` key yields the `str`-coercions of that value's iteration
when it is iterable and the empty set with a warning when it is not; an
object without a `"seen"` key, or any other JSON shape, yields the empty
set silently (without a warning). -/
theorem c5_load_amended :
    load none = { seen := ∅, warned := false } ∧
    load (some (.error ())) = { seen := ∅, warned := true } ∧
    (∀ xs, load (some (.ok (.jarr xs))) =
        { seen := (xs.map pyStr).toFinset, warned := false }) ∧
    (∀ kvs, kvs.lookup "seen" = none →
        load (some (.ok (.jobj kvs))) = { seen := ∅, warned := false }) ∧
    (∀ kvs sv strs, kvs.lookup "seen" = some sv → pyStrIter sv = some strs →
        load (some (.ok (.jobj kvs))) =
          { seen := strs.toFinset, warned := false }) ∧
    (∀ kvs sv, kvs.lookup "seen" = some sv → pyStrIter sv = none →
        load (some (.ok (.jobj kvs))) = { seen := ∅, warned := true }) ∧
    load (some (.ok .jnull)) = { seen := ∅, warned := false } ∧
    (∀ b, load (some (.ok (.jbool b))) = { seen := ∅, warned := false }) ∧
    (∀ n, load (some (.ok (.jnum n))) = { seen := ∅, warned := false }) ∧
    (∀ s, load (some (.ok (.jstr s))) = { seen := ∅, warned := false }) := by
  refine ⟨rfl, rfl, fun xs => rfl, ?_, ?_, ?_, rfl, fun b => rfl,
    fun n => rfl, fun s => rfl⟩
  · intro kvs hk
    simp [load, hk]
  · intro kvs sv strs hk hi
    simp [load, hk, hi]
  · intro kvs sv hk hi
    simp [load, hk, hi]

/-- C5 witness: a ledger holding `{"seen": ["a", "a", "b"]}` loads as
`{"a", "b"}` without a warning. -/
theorem c5_load_amended_witness :
    load (some (.ok (.jobj [("seen", .jarr [.jstr "a", .jstr "a", .jstr "b"])]))) =
      { seen := {"a", "b"}, warned := false } := by
  have h := c5_load_amended.2.2.2.2.1
    [("seen", JVal.jarr [.jstr "a", .jstr "a", .jstr "b"])]
    (JVal.jarr [.jstr "a", .jstr "a", .jstr "b"]) ["a", "a", "b"] rfl rfl
  rw [h]
  simp only [LoadResult.mk.injEq]
  exact ⟨by decide, trivial⟩

/-- The scan `for loc in sorted-candidates: urls = parse(loc); if urls:
break` returns the fetch of the first location with a non-empty fetch. -/
theorem firstNonEmptyFetch_cons (fetch : String → List String)
    (l : String) (ls : List String) :
    (fetch l ≠ [] → firstNonEmptyFetch fetch (l :: ls) = fetch l) ∧
    (fetch l = [] → firstNonEmptyFetch fetch (l :: ls) =
        firstNonEmptyFetch fetch ls) := by
  constructor
  · intro h
    simp [firstNonEmptyFetch, h]
  · intro h
    simp [firstNonEmptyFetch, h]

/-- Lexicographic `charListLe` is reflexive. -/
theorem charListLe_refl : ∀ as, charListLe as as = true := by
  intro as
  induction as with
  | nil => rfl
  | cons a as ih => simp [charListLe, ih]

/-- Lexicographic `charListLe` is total. -/
theorem charListLe_total : ∀ as bs,
    charListLe as bs = true ∨ charListLe bs as = true := by
  intro as
  induction as with
  | nil => intro bs; left; rfl
  | cons a as ih =>
    intro bs
    cases bs with
    | nil => right; rfl
    | cons b bs =>
      simp only [charListLe]
      rcases Nat.lt_trichotomy a.toNat b.toNat with h | h | h
      · left; simp [h]
      · have h1 : ¬ a.toNat < b.toNat := by omega
        have h2 : ¬ b.toNat < a.toNat := by omega
        simpa [h1, h2] using ih bs
      · right; simp [h]

/-- Lexicographic `charListLe` is transitive. -/
theorem charListLe_trans : ∀ as bs cs,
    charListLe as bs = true → charListLe bs cs = true →
    charListLe as cs = true := by
  intro as
  induction as with
  | nil => intro bs cs _ _; rfl
  | cons a as ih =>
    intro bs cs h1 h2
    cases bs with
    | nil => simp [charListLe] at h1
    | cons b bs =>
      cases cs with
      | nil => simp [charListLe] at h2
      | cons c cs =>
        simp only [charListLe] at h1 h2 ⊢
        rcases Nat.lt_trichotomy a.toNat b.toNat with hab | hab | hab
        · rcases Nat.lt_trichotomy b.toNat c.toNat with hbc | hbc | hbc
          · simp [show a.toNat < c.toNat by omega]
          · simp [show a.toNat < c.toNat by omega]
          · rw [if_neg (by omega), if_pos hbc] at h2
            exact Bool.noConfusion h2
        · rcases Nat.lt_trichotomy b.toNat c.toNat with hbc | hbc | hbc
          · simp [show a.toNat < c.toNat by omega]
          · rw [if_neg (by omega), if_neg (by omega)] at h1 h2
            rw [if_neg (by omega), if_neg (by omega)]
            exact ih bs cs h1 h2
          · rw [if_neg (by omega), if_pos hbc] at h2
            exact Bool.noConfusion h2
        · rw [if_neg (by omega), if_pos hab] at h1
          exact Bool.noConfusion h1

/-- `insertDescStr` inserts its element: the result is a permutation of
the element consed onto the input. -/
theorem insertDescStr_perm (x : String) :
    ∀ l, (insertDescStr x l).Perm (x :: l) := by
  intro l
  induction l with
  | nil => exact List.Perm.refl _
  | cons y ys ih =>
    rw [insertDescStr]
    by_cases h : strLe y x = true
    · rw [if_pos h]
    · rw [if_neg h]
      exact (ih.cons y).trans (List.Perm.swap x y ys)

/-- `sortDescStr` permutes its input. -/
theorem sortDescStr_perm : ∀ l, (sortDescStr l).Perm l := by
  intro l
  induction l with
  | nil => exact List.Perm.refl _
  | cons x xs ih =>
    exact (insertDescStr_perm x (sortDescStr xs)).trans (ih.cons x)

/-- Inserting into a descending-sorted list keeps it descending-sorted. -/
theorem insertDescStr_sorted (x : String) :
    ∀ l, List.Sorted (fun a b => strLe b a = true) l →
      List.Sorted (fun a b => strLe b a = true) (insertDescStr x l) := by
  intro l
  induction l with
  | nil => intro _; simp [insertDescStr]
  | cons y ys ih =>
    intro h
    rw [List.sorted_cons] at h
    obtain ⟨hy, hys⟩ := h
    rw [insertDescStr]
    by_cases hyx : strLe y x = true
    · rw [if_pos hyx, List.sorted_cons]
      refine ⟨?_, List.sorted_cons.mpr ⟨hy, hys⟩⟩
      intro b hb
      rcases List.mem_cons.mp hb with rfl | hb'
      · exact hyx
      · exact charListLe_trans _ _ _ (hy b hb') hyx
    · rw [if_neg hyx, List.sorted_cons]
      refine ⟨?_, ih hys⟩
      intro b hb
      have hb2 : b ∈ x :: ys := (insertDescStr_perm x ys).subset hb
      rcases List.mem_cons.mp hb2 with rfl | hb'
      · rcases charListLe_total y.data b.data with h | h
        · exact absurd h hyx
        · exact h
      · exact hy b hb'

/-- `sortDescStr` sorts descending. -/
theorem sortDescStr_sorted :
    ∀ l, List.Sorted (fun a b => strLe b a = true) (sortDescStr l) := by
  intro l
  induction l with
  | nil => simp [sortDescStr]
  | cons x xs ih => exact insertDescStr_sorted x _ ih

/-- C6 — when the direct post-sitemap yields no URLs, the resolution
consults the index: the entries containing `post-sitemap` are sorted in
descending lexical order and fetched in that order, stopping at the
first non-empty result; the head of that order (the first location
tried) is lexically greatest among the candidates.  A non-empty direct
result short-circuits the index entirely. -/
theorem c6_sitemap_indirection (direct : List String)
    (entries : List (Option String)) (fetch : String → List String) :
    (direct ≠ [] → resolve_sitemap_urls direct (some entries) fetch = direct) ∧
    (direct = [] → resolve_sitemap_urls direct (some entries) fetch =
        firstNonEmptyFetch fetch
          (sortDescStr (candidate_post_sitemaps entries))) ∧
    (sortDescStr (candidate_post_sitemaps entries)).Sorted
      (fun a b => strLe b a = true) ∧
    (sortDescStr (candidate_post_sitemaps entries)).Perm
      (candidate_post_sitemaps entries) ∧
    (∀ c ∈ candidate_post_sitemaps entries,
      ∀ x ∈ (sortDescStr (candidate_post_sitemaps entries)).head?,
        strLe c x = true) ∧
    (∀ l ls, fetch l ≠ [] → firstNonEmptyFetch fetch (l :: ls) = fetch l) ∧
    (∀ l ls, fetch l = [] → firstNonEmptyFetch fetch (l :: ls) =
        firstNonEmptyFetch fetch ls) := by
  refine ⟨?_, ?_, sortDescStr_sorted _, sortDescStr_perm _,
    ?_, fun l ls => (firstNonEmptyFetch_cons fetch l ls).1,
    fun l ls => (firstNonEmptyFetch_cons fetch l ls).2⟩
  · intro h
    simp [resolve_sitemap_urls, h]
  · intro h
    subst h
    simp [resolve_sitemap_urls]
  · intro c hc x hx
    have hsorted := sortDescStr_sorted (candidate_post_sitemaps entries)
    have hmem : c ∈ sortDescStr (candidate_post_sitemaps entries) :=
      (sortDescStr_perm _).symm.subset hc
    cases hlist : sortDescStr (candidate_post_sitemaps entries) with
    | nil => rw [hlist] at hx; cases hx
    | cons y ys =>
      rw [hlist] at hx
      rw [List.head?_cons, Option.mem_some_iff] at hx
      subst hx
      rw [hlist] at hmem hsorted
      rcases List.mem_cons.mp hmem with rfl | hcys
      · exact charListLe_refl _
      · exact (List.rel_of_sorted_cons hsorted) c hcys

/-- C6 witness: with an empty direct result, the index candidates
`post-sitemap2.xml` (lexically greatest) and `post-sitemap10.xml` are
tried newest-first, and the resolution returns the first non-empty
fetch. -/
theorem c6_sitemap_indirection_witness :
    resolve_sitemap_urls []
        (some [some "https://s/post-sitemap10.xml", none,
               some "https://s/page-sitemap.xml",
               some "https://s/post-sitemap2.xml"])
        (fun l => if l = "https://s/post-sitemap2.xml"
                  then ["https://www.chinapress.com.my/2024/5/1/a/"] else []) =
      ["https://www.chinapress.com.my/2024/5/1/a/"] := by
  have h := (c6_sitemap_indirection []
      [some "https://s/post-sitemap10.xml", none,
       some "https://s/page-sitemap.xml",
       some "https://s/post-sitemap2.xml"]
      (fun l => if l = "https://s/post-sitemap2.xml"
                then ["https://www.chinapress.com.my/2024/5/1/a/"] else [])).2.1
    rfl
  rw [h]
  rfl

/-- C8 counterexample — the Article invariant "title is non-empty
trimmed text" fails on the code: a feed entry whose title is a single
space is truthy, so it passes the `if not url or not title` guard, and
`title.strip()` then leaves an empty title in the constructed Article. -/
theorem c8_article_invariant_counterexample :
    fetch_from_rss
        [{ link := some "http://u", title := some " ", published := none,
           updated := none, summary := none, media_content := [],
           links := [], summary_img_srcs := [] }] 10 =
      [{ title := "", url := "http://u", published_at := none,
         summary := none, images := [] }] := by
  decide

/-- Every article the sitemap loop emits has a non-empty title and a
non-empty url. -/
theorem sitemapArticlesGo_fields :
    ∀ (l : List String) (max_items count : Nat) (arts : List Article),
      sitemapArticlesGo max_items count l = .ok arts →
      ∀ a ∈ arts, a.title ≠ "" ∧ a.url ≠ "" := by
  intro l
  induction l with
  | nil =>
    intro max_items count arts h a ha
    simp only [sitemapArticlesGo] at h
    cases h
    simp at ha
  | cons u rest ih =>
    intro max_items count arts h a ha
    rw [sitemapArticlesGo] at h
    split at h
    · exact ih _ _ _ h a ha
    · rename_i hpat
      have hu : u ≠ "" := by
        intro h0
        subst h0
        exact hpat (by decide)
      split at h
      · exact absurd h (by simp)
      · rename_i t htitle
        have ht : t ≠ "" := by
          rw [sitemap_title] at htitle
          cases hseg : sitemapTitleSeg u with
          | none => rw [hseg] at htitle; exact absurd htitle (by simp)
          | some seg =>
            rw [hseg] at htitle
            simp only [Option.map_some', Option.some.injEq] at htitle
            by_cases hseg0 :
                String.mk (seg.data.map (fun c => if c == '-' then ' ' else c)) = ""
            · rw [if_pos hseg0] at htitle
              rw [← htitle]
              exact hu
            · rw [if_neg hseg0] at htitle
              rw [← htitle]
              exact hseg0
        split at h
        · rw [Except.ok.injEq] at h
          subst h
          rcases List.mem_singleton.mp ha with rfl
          exact ⟨ht, hu⟩
        · cases hrec : sitemapArticlesGo max_items (count + 1) rest with
          | error e => rw [hrec] at h; exact absurd h (by simp [Except.map])
          | ok arts' =>
            rw [hrec] at h
            simp only [Except.map, Except.ok.injEq] at h
            subst h
            rcases List.mem_cons.mp ha with rfl | ha'
            · exact ⟨ht, hu⟩
            · exact ih _ _ _ hrec a ha'

/-- C8 (amended) — every Article the RSS strategy constructs from
entries whose title and link are not whitespace-only has a non-empty
title and a non-empty url (a whitespace-only title or link is truthy in
Python but strips to empty, so the unconditional claim fails); every
Article the sitemap strategy constructs unconditionally has a non-empty
title and a non-empty url. -/
theorem c8_article_invariant_amended :
    (∀ (entries : List FeedEntry) (max_items : Nat),
        (∀ e ∈ entries,
           (∀ t, e.title = some t → pyStrip t ≠ "") ∧
           (∀ v, e.link = some v → pyStrip v ≠ "")) →
        ∀ a ∈ fetch_from_rss entries max_items,
          a.title ≠ "" ∧ a.url ≠ "") ∧
    (∀ (urls : List String) (max_items : Nat) (arts : List Article),
        fetch_from_sitemap_articles urls max_items = .ok arts →
        ∀ a ∈ arts, a.title ≠ "" ∧ a.url ≠ "") := by
  constructor
  · intro entries max_items hok a ha
    rw [fetch_from_rss, List.mem_filterMap] at ha
    obtain ⟨e, he, hfe⟩ := ha
    have he' : e ∈ entries := List.take_subset _ _ he
    split at hfe
    · rename_i hcond
      rw [Option.some.injEq] at hfe
      rw [Bool.and_eq_true] at hcond
      obtain ⟨hlink, htitle⟩ := hcond
      obtain ⟨hT, hL⟩ := hok e he'
      cases hl : e.link with
      | none => rw [hl] at hlink; exact absurd hlink (by simp [truthy])
      | some v =>
        cases htt : e.title with
        | none => rw [htt] at htitle; exact absurd htitle (by simp [truthy])
        | some t =>
          subst hfe
          constructor
          · simpa [htt] using hT t htt
          · simpa [hl] using hL v hl
    · exact absurd hfe (by simp)
  · exact fun urls max_items arts h => sitemapArticlesGo_fields _ _ _ _ h

/-- C8 witness: a well-formed feed entry yields an article with
non-empty title and url, and a concrete sitemap url does too. -/
theorem c8_article_invariant_witness :
    (({ title := "Good Title", url := "http://u", published_at := none,
        summary := none, images := [] } : Article).title ≠ "" ∧
      ({ title := "Good Title", url := "http://u", published_at := none,
         summary := none, images := [] } : Article).url ≠ "") ∧
    (({ title := "x", url := "https://www.chinapress.com.my/2024/5/1/x/",
        published_at := none, summary := none, images := [] } : Article).title ≠ "" ∧
      ({ title := "x", url := "https://www.chinapress.com.my/2024/5/1/x/",
         published_at := none, summary := none, images := [] } : Article).url ≠ "") := by
  constructor
  · refine c8_article_invariant_amended.1
      [{ link := some "http://u", title := some "Good Title",
         published := none, updated := none, summary := none,
         media_content := [], links := [], summary_img_srcs := [] }] 5
      ?_ _ ?_
    · intro e he
      rcases List.mem_singleton.mp he with rfl
      constructor
      · intro t ht
        rw [Option.some.injEq] at ht
        subst ht
        decide
      · intro v hv
        rw [Option.some.injEq] at hv
        subst hv
        decide
    · decide
  · exact c8_article_invariant_amended.2
      ["https://www.chinapress.com.my/2024/5/1/x/"] 3 _ rfl _ (by decide)


/-- A url delivered by the loop was not in the seen set the loop started
from, whatever the send outcomes. -/
theorem runLoop_sent_not_init (send : String → Bool) (max_items : Nat) :
    ∀ (l : List Article) (seen : Finset String) (sc : Nat) (u : String),
      u ∈ (runLoop send max_items l seen sc).1 → u ∉ seen := by
  intro l
  induction l with
  | nil =>
    intro seen sc u hu
    simp [runLoop] at hu
  | cons a rest ih =>
    intro seen sc u hu
    simp only [runLoop] at hu
    by_cases hmem : a.url ∈ seen
    · rw [if_pos hmem] at hu
      exact ih _ _ _ hu
    · rw [if_neg hmem] at hu
      by_cases hsend : send a.url = true
      · rw [if_pos hsend] at hu
        by_cases hbreak : max_items ≤ sc + 1
        · rw [if_pos hbreak] at hu
          rcases List.mem_singleton.mp hu with rfl
          exact hmem
        · rw [if_neg hbreak] at hu
          rcases List.mem_cons.mp hu with rfl | hu'
          · exact hmem
          · intro hin
            exact ih _ _ _ hu' (Finset.mem_insert_of_mem hin)
      · rw [if_neg hsend] at hu
        simp at hu

/-- The loop only grows the seen set, whatever the send outcomes. -/
theorem runLoop_seen_sub (send : String → Bool) (max_items : Nat) :
    ∀ (l : List Article) (seen : Finset String) (sc : Nat),
      seen ⊆ (runLoop send max_items l seen sc).2.1 := by
  intro l
  induction l with
  | nil => intro seen sc; exact Finset.Subset.refl _
  | cons a rest ih =>
    intro seen sc
    simp only [runLoop]
    by_cases hmem : a.url ∈ seen
    · rw [if_pos hmem]
      exact ih _ _
    · rw [if_neg hmem]
      by_cases hsend : send a.url = true
      · rw [if_pos hsend]
        by_cases hbreak : max_items ≤ sc + 1
        · rw [if_pos hbreak]
          exact Finset.subset_insert _ _
        · rw [if_neg hbreak]
          exact (Finset.subset_insert _ _).trans (ih _ _)
      · rw [if_neg hsend]

/-- Every delivered url is in the final seen set (also in an aborted
run: the urls delivered before the raising send were added before it). -/
theorem runLoop_sent_final (send : String → Bool) (max_items : Nat) :
    ∀ (l : List Article) (seen : Finset String) (sc : Nat) (u : String),
      u ∈ (runLoop send max_items l seen sc).1 →
      u ∈ (runLoop send max_items l seen sc).2.1 := by
  intro l
  induction l with
  | nil =>
    intro seen sc u hu
    simp [runLoop] at hu
  | cons a rest ih =>
    intro seen sc u hu
    simp only [runLoop] at hu ⊢
    by_cases hmem : a.url ∈ seen
    · rw [if_pos hmem] at hu ⊢
      exact ih _ _ _ hu
    · rw [if_neg hmem] at hu ⊢
      by_cases hsend : send a.url = true
      · rw [if_pos hsend] at hu ⊢
        by_cases hbreak : max_items ≤ sc + 1
        · rw [if_pos hbreak] at hu ⊢
          rcases List.mem_singleton.mp hu with rfl
          exact Finset.mem_insert_self _ _
        · rw [if_neg hbreak] at hu ⊢
          rcases List.mem_cons.mp hu with rfl | hu'
          · exact runLoop_seen_sub _ _ _ _ _ (Finset.mem_insert_self _ _)
          · exact ih _ _ _ hu'
      · rw [if_neg hsend] at hu
        simp at hu

/-- No url is delivered twice within one run, whatever the send
outcomes. -/
theorem runLoop_sent_nodup (send : String → Bool) (max_items : Nat) :
    ∀ (l : List Article) (seen : Finset String) (sc : Nat),
      ((runLoop send max_items l seen sc).1).Nodup := by
  intro l
  induction l with
  | nil => intro seen sc; simp [runLoop]
  | cons a rest ih =>
    intro seen sc
    simp only [runLoop]
    by_cases hmem : a.url ∈ seen
    · rw [if_pos hmem]
      exact ih _ _
    · rw [if_neg hmem]
      by_cases hsend : send a.url = true
      · rw [if_pos hsend]
        by_cases hbreak : max_items ≤ sc + 1
        · rw [if_pos hbreak]
          exact List.nodup_singleton _
        · rw [if_neg hbreak]
          refine List.nodup_cons.mpr ⟨?_, ih _ _⟩
          intro hin
          exact runLoop_sent_not_init _ _ _ _ _ _ hin
            (Finset.mem_insert_self _ _)
      · rw [if_neg hsend]
        exact List.nodup_nil

/-- The persisted ledger contains the loaded one (an aborted or
zero-send run keeps the old file; a saving run persists a superset). -/
theorem run_persisted_supset (send : String → Bool)
    (articles : List Article) (ledger : Finset String) (max_items : Nat) :
    ledger ⊆ run_persisted send articles ledger max_items := by
  rw [run_persisted]
  split
  · exact Finset.Subset.refl _
  · split
    · exact runLoop_seen_sub _ _ _ _ _
    · exact Finset.Subset.refl _

/-- The run-sequence ledger only grows. -/
theorem ledger_after_mono (sends : Nat → String → Bool)
    (articles : List Article) (max_items : Nat) (L0 : Finset String) :
    ∀ n m : Nat, n ≤ m →
      ledger_after sends articles max_items L0 n ⊆
        ledger_after sends articles max_items L0 m := by
  intro n m hnm
  induction m with
  | zero =>
    rw [Nat.le_zero.mp hnm]
  | succ k ih =>
    rcases Nat.lt_or_ge n (k + 1) with h | h
    · exact (ih (Nat.lt_succ_iff.mp h)).trans
        (run_persisted_supset _ _ _ _)
    · rw [Nat.le_antisymm hnm h]

/-- A url delivered in a run that did NOT abort is in the ledger every
later run loads. -/
theorem sent_in_ledger_next (sends : Nat → String → Bool)
    (articles : List Article) (max_items : Nat) (L0 : Finset String)
    (n : Nat) (u : String)
    (habort : run_aborted (sends n) articles
        (ledger_after sends articles max_items L0 n) max_items = false)
    (hu : u ∈ sent_in_run sends articles max_items L0 n) :
    u ∈ ledger_after sends articles max_items L0 (n + 1) := by
  rw [ledger_after, run_persisted, habort]
  rw [sent_in_run] at hu
  rw [if_neg Bool.false_ne_true]
  split
  · exact runLoop_sent_final _ _ _ _ _ _ hu
  · rename_i hne
    rw [not_not, run_sent] at hne
    rw [run_sent, hne] at hu
    exact absurd hu (List.not_mem_nil u)

/-- C1 (amended) — over fixed remote content and explicit send
outcomes: a URL in the ledger loaded at run start is never sent in that
run, and no URL is sent twice within a run, unconditionally; when a run
is not aborted by a raising `tg.send_message`, every URL it delivered
is recorded in the persisted ledger and is never delivered again in any
later run; a run that IS aborted persists nothing — the ledger file
keeps its previous content, so its already-delivered URLs may be
re-delivered later. -/
theorem c1_at_most_once_delivery (sends : Nat → String → Bool)
    (articles : List Article) (max_items : Nat) (L0 : Finset String)
    (u : String) :
    (∀ n, u ∈ ledger_after sends articles max_items L0 n →
        u ∉ sent_in_run sends articles max_items L0 n) ∧
    (∀ n, (sent_in_run sends articles max_items L0 n).Nodup) ∧
    (∀ n, run_aborted (sends n) articles
          (ledger_after sends articles max_items L0 n) max_items = false →
        u ∈ sent_in_run sends articles max_items L0 n →
        u ∈ ledger_after sends articles max_items L0 (n + 1)) ∧
    (∀ n, run_aborted (sends n) articles
          (ledger_after sends articles max_items L0 n) max_items = true →
        ledger_after sends articles max_items L0 (n + 1) =
          ledger_after sends articles max_items L0 n) ∧
    (∀ n m, n < m →
        run_aborted (sends n) articles
          (ledger_after sends articles max_items L0 n) max_items = false →
        u ∈ sent_in_run sends articles max_items L0 n →
        u ∉ sent_in_run sends articles max_items L0 m) := by
  refine ⟨?_, ?_, ?_, ?_, ?_⟩
  · intro n hL hsent
    rw [sent_in_run, run_sent] at hsent
    exact runLoop_sent_not_init _ _ _ _ _ _ hsent hL
  · intro n
    rw [sent_in_run, run_sent]
    exact runLoop_sent_nodup _ _ _ _ _
  · intro n habort hsent
    exact sent_in_ledger_next _ _ _ _ _ _ habort hsent
  · intro n habort
    rw [ledger_after, run_persisted, habort]
    rw [if_pos rfl]
  · intro n m hnm habort hn hm
    have h1 : u ∈ ledger_after sends articles max_items L0 (n + 1) :=
      sent_in_ledger_next _ _ _ _ _ _ habort hn
    have h2 : u ∈ ledger_after sends articles max_items L0 m :=
      ledger_after_mono _ _ _ _ _ _ hnm h1
    rw [sent_in_run, run_sent] at hm
    exact runLoop_sent_not_init _ _ _ _ _ _ hm h2

/-- C1 counterexample — the original claim ("every URL for which a
message was sent is recorded in the persisted ledger so that no later
run sends it again") is false on the code: with remote content
`u1, u2`, an empty ledger, and run 0's send for `u2` raising (all other
sends returning), run 0 delivers `u1`, then aborts before
`state.save()`; `u1` is absent from the ledger run 1 loads, and run 1
delivers `u1` a second time. -/
theorem c1_at_most_once_delivery_counterexample :
    ("u1" ∈ sent_in_run (fun n v => !(n == 0 && v == "u2"))
        [{ title := "t1", url := "u1", published_at := none,
           summary := none, images := [] },
         { title := "t2", url := "u2", published_at := none,
           summary := none, images := [] }] 10 ∅ 0) ∧
    ("u1" ∉ ledger_after (fun n v => !(n == 0 && v == "u2"))
        [{ title := "t1", url := "u1", published_at := none,
           summary := none, images := [] },
         { title := "t2", url := "u2", published_at := none,
           summary := none, images := [] }] 10 ∅ 1) ∧
    ("u1" ∈ sent_in_run (fun n v => !(n == 0 && v == "u2"))
        [{ title := "t1", url := "u1", published_at := none,
           summary := none, images := [] },
         { title := "t2", url := "u2", published_at := none,
           summary := none, images := [] }] 10 ∅ 1) := by
  exact ⟨by decide, by decide, by decide⟩

/-- C1 witness: with all sends succeeding, content `u1, u2, u3`, a
ledger already holding `u1`, and a per-run cap of 2: run 0 does not
resend `u1`, delivers `u2`, and run 1 does not deliver `u2` again. -/
theorem c1_at_most_once_delivery_witness :
    ("u1" ∉ sent_in_run (fun _ _ => true)
        [{ title := "t1", url := "u1", published_at := none,
           summary := none, images := [] },
         { title := "t2", url := "u2", published_at := none,
           summary := none, images := [] },
         { title := "t3", url := "u3", published_at := none,
           summary := none, images := [] }] 2 {"u1"} 0) ∧
    ("u2" ∈ sent_in_run (fun _ _ => true)
        [{ title := "t1", url := "u1", published_at := none,
           summary := none, images := [] },
         { title := "t2", url := "u2", published_at := none,
           summary := none, images := [] },
         { title := "t3", url := "u3", published_at := none,
           summary := none, images := [] }] 2 {"u1"} 0) ∧
    ("u2" ∉ sent_in_run (fun _ _ => true)
        [{ title := "t1", url := "u1", published_at := none,
           summary := none, images := [] },
         { title := "t2", url := "u2", published_at := none,
           summary := none, images := [] },
         { title := "t3", url := "u3", published_at := none,
           summary := none, images := [] }] 2 {"u1"} 1) :=
  ⟨(c1_at_most_once_delivery (fun _ _ => true)
      [{ title := "t1", url := "u1", published_at := none,
         summary := none, images := [] },
       { title := "t2", url := "u2", published_at := none,
         summary := none, images := [] },
       { title := "t3", url := "u3", published_at := none,
         summary := none, images := [] }] 2 {"u1"} "u1").1 0 (by decide),
   by decide,
   (c1_at_most_once_delivery (fun _ _ => true)
      [{ title := "t1", url := "u1", published_at := none,
         summary := none, images := [] },
       { title := "t2", url := "u2", published_at := none,
         summary := none, images := [] },
       { title := "t3", url := "u3", published_at := none,
         summary := none, images := [] }] 2 {"u1"} "u2").2.2.2.2 0 1
     (by decide) (by decide) (by decide)⟩

end ChinaPress
